import Mathlib

/-!
Verification of the labeler action (src/main.ts, later revision):
configuration parsing (`getLabelGlobMapFromObject`), glob dispatch
(`checkGlobs`), the rule-evaluation loop in `run`, and the label
reconciliation in `updateLabels`.

The glob matcher itself is the external `minimatch` library; it is
abstracted as a parameter `gmatch : String → String → Bool`
(pattern → candidate → Bool).  Everything else is translated directly
from the TypeScript source.
-/

namespace Labeler

/-- An untyped configuration value, as produced by `yaml.safeLoad`.
Arrays hold arbitrary values (`instanceof Array` in the source accepts
any array, whatever its element types); other runtime types are
represented by `bool`, `num`, `nullV`. -/
inductive ConfigValue where
  | str (s : String)
  | arr (xs : List ConfigValue)
  | bool (b : Bool)
  | num (n : Int)
  | nullV

/-- One entry body of the configuration object: the four fields the
source reads (`type`, `removable`, `opened_only`, `patterns`); `none`
models an absent field (`undefined`). -/
structure ConfigEntry where
  type : Option ConfigValue
  removable : Option ConfigValue
  opened_only : Option ConfigValue
  patterns : Option ConfigValue

/-- The `LabelerKey` class: `type` is declared as `LabelType` in the
source but, because the config object is `any`, at runtime it holds
whatever string the config supplied; it is therefore a `String` here. -/
structure LabelerKey where
  type : String
  label : String
  removable : Bool
  opened_only : Bool
deriving DecidableEq, Repr

/-- `let keytype: LabelType = LabelType.filesChanged;
if (typeof configObject[label]["type"] === "string") keytype = ...;` -/
def entryType (e : ConfigEntry) : String :=
  match e.type with
  | some (.str s) => s
  | _ => "filesChanged"

/-- `let removable: boolean = false;
if (typeof configObject[label]["removable"] === "boolean") removable = ...;` -/
def entryRemovable (e : ConfigEntry) : Bool :=
  match e.removable with
  | some (.bool b) => b
  | _ => false

/-- `let opened_only: boolean = false;
if (typeof configObject[label]["opened_only"] === "boolean") opened_only = ...;` -/
def entryOpenedOnly (e : ConfigEntry) : Bool :=
  match e.opened_only with
  | some (.bool b) => b
  | _ => false

/-- The body of the `for (const label in configObject)` loop of
`getLabelGlobMapFromObject`: a single string becomes a one-element
array, any array (`instanceof Array`, regardless of element types) is
stored as-is, and otherwise the entry throws (modelled by
`Except.error`) unless the keytype is `alwaysRemove`/`mergeState`, in
which case the `["not applicable"]` placeholder is stored. -/
def parseEntry (label : String) (e : ConfigEntry) :
    Except String (LabelerKey × List ConfigValue) :=
  let keytype := entryType e
  let removable := entryRemovable e
  let opened_only := entryOpenedOnly e
  match e.patterns with
  | some (.str s) =>
      .ok (⟨keytype, label, removable, opened_only⟩, [.str s])
  | some (.arr xs) =>
      .ok (⟨keytype, label, removable, opened_only⟩, xs)
  | _ =>
      if keytype == "alwaysRemove" || keytype == "mergeState" then
        .ok (⟨keytype, label, removable, opened_only⟩, [.str "not applicable"])
      else
        .error ("found unexpected type for label patterns " ++ label ++
          " (should be string or array of globs)")

/-- `getLabelGlobMapFromObject`: builds the ordered rule map entry by
entry; the first throwing entry aborts the whole parse (the thrown
error propagates out of the loop, so no partial map is returned). -/
def getLabelGlobMapFromObject (config : List (String × ConfigEntry)) :
    Except String (List (LabelerKey × List ConfigValue)) :=
  match config with
  | [] => .ok []
  | (label, e) :: rest => do
      let r ← parseEntry label e
      let rs ← getLabelGlobMapFromObject rest
      return r :: rs

/-- The PR facts the `run` loop consumes: changed files, title,
mergeable flag and the event action from the payload. -/
structure PrFacts where
  changedFiles : List String
  prTitle : String
  mergeable : Bool
  action : String
deriving DecidableEq, Repr

/-- `checkGlobs`: outer loop over globs, inner loop over changed files,
returning true on the first match (`List.any` has exactly that
short-circuit semantics). -/
def checkGlobs (gmatch : String → String → Bool)
    (changedFiles : List String) (globs : List String) : Bool :=
  globs.any fun glob => changedFiles.any fun changedFile => gmatch glob changedFile

/-- The body of the `for (const [label, globs] of labelGlobs.entries())`
loop in `run`: the opened-only skip followed by the `switch` on
`label.type` (a string `switch` with no default case). -/
def processRule (gmatch : String → String → Bool) (facts : PrFacts)
    (acc : List String × List String) (rule : LabelerKey × List String) :
    List String × List String :=
  let (label, globs) := rule
  if label.opened_only && facts.action != "opened" then
    acc
  else if label.type == "filesChanged" then
    if checkGlobs gmatch facts.changedFiles globs then
      (acc.1 ++ [label.label], acc.2)
    else if label.removable then
      (acc.1, acc.2 ++ [label.label])
    else
      acc
  else if label.type == "alwaysRemove" then
    (acc.1, acc.2 ++ [label.label])
  else if label.type == "mergeState" then
    if !facts.mergeable then
      (acc.1 ++ [label.label], acc.2)
    else if label.removable then
      (acc.1, acc.2 ++ [label.label])
    else
      acc
  else if label.type == "title" then
    if checkGlobs gmatch [facts.prTitle] globs then
      (acc.1 ++ [label.label], acc.2)
    else if label.removable then
      (acc.1, acc.2 ++ [label.label])
    else
      acc
  else
    acc

/-- The whole evaluation loop of `run`: fold `processRule` over the
rules in declaration order, starting from two empty lists. -/
def evalRules (gmatch : String → String → Bool) (facts : PrFacts)
    (rules : List (LabelerKey × List String)) : List String × List String :=
  rules.foldl (processRule gmatch facts) ([], [])

/-- `[...new Set(l)]` in JavaScript: collapse duplicates keeping the
first occurrence of each element, preserving insertion order. -/
def dedupFirst : List String → List String
  | [] => []
  | x :: xs => x :: dedupFirst (xs.filter fun y => y != x)
termination_by l => l.length
decreasing_by
  simp only [List.length_cons]
  exact Nat.lt_succ_of_le (List.length_filter_le _ _)

/-- `resulting_labels` in `updateLabels`:
`[...new Set([...current_labels, ...labels_to_add])].filter(p => !labels_to_remove.includes(p))`. -/
def resultingLabels (current_labels labels_to_add labels_to_remove : List String) :
    List String :=
  (dedupFirst (current_labels ++ labels_to_add)).filter
    fun p => !(labels_to_remove.contains p)

/-- The tail of `run`: the update call is issued only when
`labels_to_add.length > 0 || labels_to_remove.length > 0`; `some`
carries the label set handed to `replaceLabels`, `none` means no
external write happens. -/
def runDecision (gmatch : String → String → Bool) (facts : PrFacts)
    (current_labels : List String) (rules : List (LabelerKey × List String)) :
    Option (List String) :=
  let r := evalRules gmatch facts rules
  if decide (0 < r.1.length) || decide (0 < r.2.length) then
    some (resultingLabels current_labels r.1 r.2)
  else
    none

/-! ### Helper lemmas -/

theorem dedupFirst_nil : dedupFirst [] = [] := by
  simp [dedupFirst]

theorem dedupFirst_cons (x : String) (xs : List String) :
    dedupFirst (x :: xs) = x :: dedupFirst (xs.filter fun y => y != x) := by
  rw [dedupFirst]

theorem mem_dedupFirst (a : String) (l : List String) :
    a ∈ dedupFirst l ↔ a ∈ l := by
  induction l using dedupFirst.induct with
  | case1 => simp [dedupFirst_nil]
  | case2 x xs ih =>
      rw [dedupFirst_cons]
      by_cases h : a = x
      · simp [h]
      · simp [h, ih, List.mem_filter, bne_iff_ne]

theorem nodup_dedupFirst (l : List String) : (dedupFirst l).Nodup := by
  induction l using dedupFirst.induct with
  | case1 => simp [dedupFirst_nil]
  | case2 x xs ih =>
      rw [dedupFirst_cons]
      refine List.nodup_cons.mpr ⟨?_, ih⟩
      rw [mem_dedupFirst]
      simp [List.mem_filter]

theorem dedupFirst_append_of_nodup (l l' : List String) (h : l.Nodup) :
    dedupFirst (l ++ l') =
      l ++ dedupFirst (l'.filter fun x => !(l.contains x)) := by
  induction l generalizing l' with
  | nil =>
      simp only [List.nil_append]
      congr 1
      symm
      rw [List.filter_eq_self]
      intro a _
      simp
  | cons x l ih =>
      rcases List.nodup_cons.mp h with ⟨hx, hl⟩
      rw [List.cons_append, dedupFirst_cons, List.filter_append]
      have hfl : l.filter (fun y => y != x) = l := by
        rw [List.filter_eq_self]
        intro a ha
        simp only [bne_iff_ne, ne_eq, decide_eq_true_eq]
        intro hax
        exact hx (hax ▸ ha)
      rw [hfl, ih _ hl, List.cons_append]
      congr 2
      rw [List.filter_filter]
      congr 1
      apply List.filter_congr
      intro a _
      simp only [List.contains_cons]
      cases hax : a == x <;> cases hal : l.contains a <;>
        simp_all [beq_iff_eq]

theorem filter_contains_idem (r l : List String) :
    ((l.filter fun p => !(r.contains p)).filter fun p => !(r.contains p)) =
      l.filter fun p => !(r.contains p) := by
  rw [List.filter_filter]
  apply List.filter_congr
  intro a _
  cases h : r.contains a <;> simp [h]

theorem mem_resultingLabels (x : String) (c a r : List String) :
    x ∈ resultingLabels c a r ↔ (x ∈ c ∨ x ∈ a) ∧ x ∉ r := by
  simp only [resultingLabels, List.mem_filter, mem_dedupFirst, List.mem_append,
    Bool.not_eq_true']
  simp

theorem nodup_resultingLabels (c a r : List String) :
    (resultingLabels c a r).Nodup :=
  List.Nodup.filter _ (nodup_dedupFirst _)

theorem checkGlobs_eq_true_iff (gmatch : String → String → Bool)
    (changedFiles globs : List String) :
    checkGlobs gmatch changedFiles globs = true ↔
      ∃ g ∈ globs, ∃ f ∈ changedFiles, gmatch g f = true := by
  simp [checkGlobs, List.any_eq_true]

/-! ### Claim theorems -/

/-- C1: the reconciled label set handed to the label-replacement call is
the union of current labels and `toAdd` with duplicates collapsed, minus
every label occurring in `toRemove`; in particular a label occurring in
both `toAdd` and `toRemove` is absent (removal dominates addition). -/
theorem C1_reconcile_union_minus_remove (c a r : List String) (x : String) :
    (x ∈ resultingLabels c a r ↔ (x ∈ c ∨ x ∈ a) ∧ x ∉ r) ∧
    (resultingLabels c a r).Nodup ∧
    (x ∈ a → x ∈ r → x ∉ resultingLabels c a r) := by
  refine ⟨mem_resultingLabels x c a r, nodup_resultingLabels c a r, ?_⟩
  intro _ hr hmem
  exact ((mem_resultingLabels x c a r).mp hmem).2 hr

/-- C1 witness: concrete instance; `"bug"` is both added and removed,
so it is absent from the reconciled set. -/
theorem C1_reconcile_union_minus_remove_witness :
    "bug" ∉ resultingLabels ["old"] ["bug", "doc"] ["bug"] :=
  (C1_reconcile_union_minus_remove ["old"] ["bug", "doc"] ["bug"] "bug").2.2
    (by decide) (by decide)

/-- C6: a rule with `opened_only = true` contributes nothing when the
event action is not `"opened"`, regardless of trigger kind, patterns or
the removable flag. -/
theorem C6_opened_only_skip (gmatch : String → String → Bool) (facts : PrFacts)
    (acc : List String × List String) (key : LabelerKey) (globs : List String)
    (h1 : key.opened_only = true) (h2 : facts.action ≠ "opened") :
    processRule gmatch facts acc (key, globs) = acc := by
  simp [processRule, h1, bne_iff_ne, h2]

/-- C6 witness: concrete skipped rule. -/
theorem C6_opened_only_skip_witness :
    processRule (fun p c => p == c) ⟨["a.md"], "t", false, "synchronize"⟩
      (["x"], ["y"]) (⟨"filesChanged", "triage", true, true⟩, ["a.md"]) =
      (["x"], ["y"]) :=
  C6_opened_only_skip (fun p c => p == c)
    ⟨["a.md"], "t", false, "synchronize"⟩ (["x"], ["y"])
    ⟨"filesChanged", "triage", true, true⟩ ["a.md"] rfl (by decide)

/-- C7: `checkGlobs` returns true iff some pattern matches some
candidate, and returns false whenever either sequence is empty. -/
theorem C7_checkGlobs_existential (gmatch : String → String → Bool)
    (candidates patterns : List String) :
    (checkGlobs gmatch candidates patterns = true ↔
      ∃ p ∈ patterns, ∃ c ∈ candidates, gmatch p c = true) ∧
    (candidates = [] ∨ patterns = [] →
      checkGlobs gmatch candidates patterns = false) := by
  refine ⟨checkGlobs_eq_true_iff gmatch candidates patterns, ?_⟩
  rintro (rfl | rfl) <;> simp [checkGlobs]

/-- C7 witness: empty candidate list gives false even with a universal
pattern present. -/
theorem C7_checkGlobs_existential_witness :
    checkGlobs (fun p c => p == c) [] ["x"] = false :=
  (C7_checkGlobs_existential (fun p c => p == c) [] ["x"]).2 (Or.inl rfl)

/-- C8: the external label-update call is issued iff at least one of
`labels_to_add`, `labels_to_remove` is non-empty; when both are empty
no external write occurs (`runDecision` is `none`). -/
theorem C8_update_iff_nonempty (gmatch : String → String → Bool)
    (facts : PrFacts) (current_labels : List String)
    (rules : List (LabelerKey × List String)) :
    (runDecision gmatch facts current_labels rules = none ↔
      (evalRules gmatch facts rules).1 = [] ∧
      (evalRules gmatch facts rules).2 = []) ∧
    ((evalRules gmatch facts rules).1 ≠ [] ∨
      (evalRules gmatch facts rules).2 ≠ [] →
      runDecision gmatch facts current_labels rules =
        some (resultingLabels current_labels
          (evalRules gmatch facts rules).1 (evalRules gmatch facts rules).2)) := by
  constructor
  · unfold runDecision
    rcases h1 : (evalRules gmatch facts rules).1 with _ | ⟨y, ys⟩ <;>
      rcases h2 : (evalRules gmatch facts rules).2 with _ | ⟨z, zs⟩ <;>
        simp [h1, h2]
  · intro h
    unfold runDecision
    rcases h with h | h <;>
      rcases h1 : (evalRules gmatch facts rules).1 with _ | ⟨y, ys⟩ <;>
        rcases h2 : (evalRules gmatch facts rules).2 with _ | ⟨z, zs⟩ <;>
          simp_all [h1, h2]

/-- C8 witness: one alwaysRemove rule forces an update; no rules means
no update call. -/
theorem C8_update_iff_nonempty_witness :
    runDecision (fun p c => p == c) ⟨[], "t", true, "opened"⟩ ["bug"] [] = none :=
  (C8_update_iff_nonempty (fun p c => p == c) ⟨[], "t", true, "opened"⟩
    ["bug"] []).1.mpr ⟨rfl, rfl⟩

/-- C9: reconciliation is idempotent: applying `resultingLabels` a
second time with the same `toAdd`/`toRemove` to its own output returns
the output unchanged. -/
theorem C9_reconcile_idempotent (c a r : List String) :
    resultingLabels (resultingLabels c a r) a r = resultingLabels c a r := by
  have hnd : ((dedupFirst (c ++ a)).filter fun p => !(r.contains p)).Nodup :=
    List.Nodup.filter _ (nodup_dedupFirst _)
  unfold resultingLabels
  rw [dedupFirst_append_of_nodup _ _ hnd, List.filter_append,
    filter_contains_idem r _]
  have hnil :
      (dedupFirst (a.filter fun x =>
          !(((dedupFirst (c ++ a)).filter (fun p => !(r.contains p))).contains x))).filter
        (fun p => !(r.contains p)) = [] := by
    rw [List.filter_eq_nil_iff]
    intro y hy
    rw [mem_dedupFirst, List.mem_filter] at hy
    rcases hy with ⟨hya, hyn⟩
    simp only [Bool.not_eq_true'] at hyn
    have hyn' : y ∉ (dedupFirst (c ++ a)).filter fun p => !(r.contains p) := by
      simpa using hyn
    have hyd : y ∈ dedupFirst (c ++ a) := by
      rw [mem_dedupFirst]
      exact List.mem_append.mpr (Or.inr hya)
    have hyr : y ∈ r := by
      by_contra hyr
      exact hyn' (List.mem_filter.mpr ⟨hyd, by simp [hyr]⟩)
    simp [hyr]
  rw [hnil, List.append_nil]

/-- C2: for a rule that is not skipped by the opened-only check, the
evaluator dispatches on the trigger kind: `filesChanged` adds its label
exactly when some pattern matches some changed file, `title` exactly
when some pattern matches the title, `mergeState` exactly when the PR
is not mergeable; each of the three removes the label instead when the
condition is false and the rule is removable, otherwise has no effect;
`alwaysRemove` unconditionally removes its label. -/
theorem C2_dispatch (gmatch : String → String → Bool) (facts : PrFacts)
    (acc : List String × List String) (key : LabelerKey) (globs : List String)
    (hskip : ¬(key.opened_only = true ∧ facts.action ≠ "opened")) :
    (key.type = "filesChanged" →
      processRule gmatch facts acc (key, globs) =
        if ∃ g ∈ globs, ∃ f ∈ facts.changedFiles, gmatch g f = true then
          (acc.1 ++ [key.label], acc.2)
        else if key.removable then (acc.1, acc.2 ++ [key.label]) else acc) ∧
    (key.type = "title" →
      processRule gmatch facts acc (key, globs) =
        if ∃ g ∈ globs, gmatch g facts.prTitle = true then
          (acc.1 ++ [key.label], acc.2)
        else if key.removable then (acc.1, acc.2 ++ [key.label]) else acc) ∧
    (key.type = "mergeState" →
      processRule gmatch facts acc (key, globs) =
        if facts.mergeable = false then (acc.1 ++ [key.label], acc.2)
        else if key.removable then (acc.1, acc.2 ++ [key.label]) else acc) ∧
    (key.type = "alwaysRemove" →
      processRule gmatch facts acc (key, globs) = (acc.1, acc.2 ++ [key.label])) := by
  have hsk : (key.opened_only && facts.action != "opened") = false := by
    cases ho : key.opened_only with
    | false => simp
    | true =>
        have hact : facts.action = "opened" := by
          by_contra hne
          exact hskip ⟨ho, hne⟩
        simp [hact]
  refine ⟨?_, ?_, ?_, ?_⟩ <;> intro ht
  · cases hcg : checkGlobs gmatch facts.changedFiles globs with
    | false =>
        have hne : ¬∃ g ∈ globs, ∃ f ∈ facts.changedFiles, gmatch g f = true := by
          rw [← checkGlobs_eq_true_iff gmatch facts.changedFiles globs]
          simp [hcg]
        simp [processRule, hsk, ht, hcg, hne]
    | true =>
        have hyes : ∃ g ∈ globs, ∃ f ∈ facts.changedFiles, gmatch g f = true :=
          (checkGlobs_eq_true_iff gmatch facts.changedFiles globs).mp hcg
        simp [processRule, hsk, ht, hcg, hyes]
  · cases hcg : checkGlobs gmatch [facts.prTitle] globs with
    | false =>
        have hne : ¬∃ g ∈ globs, gmatch g facts.prTitle = true := by
          have h2 := checkGlobs_eq_true_iff gmatch [facts.prTitle] globs
          simp only [List.mem_singleton] at h2
          rw [hcg] at h2
          intro hex
          rcases hex with ⟨g, hg, hm⟩
          exact Bool.false_ne_true (h2.mpr ⟨g, hg, facts.prTitle, rfl, hm⟩)
        simp [processRule, hsk, ht, hcg, hne]
    | true =>
        have hyes : ∃ g ∈ globs, gmatch g facts.prTitle = true := by
          have h2 := (checkGlobs_eq_true_iff gmatch [facts.prTitle] globs).mp hcg
          rcases h2 with ⟨g, hg, f, hf, hm⟩
          rcases List.mem_singleton.mp hf with rfl
          exact ⟨g, hg, hm⟩
        simp [processRule, hsk, ht, hcg, hyes]
  · cases hm : facts.mergeable with
    | false => simp [processRule, hsk, ht, hm]
    | true => simp [processRule, hsk, ht, hm]
  · simp [processRule, hsk, ht]

/-- C2 witness: concrete filesChanged rule whose pattern matches a
changed file (exact-match glob semantics), adding its label. -/
theorem C2_dispatch_witness :
    processRule (fun p c => p == c) ⟨["README.md"], "t", true, "opened"⟩
      ([], []) (⟨"filesChanged", "docs", false, false⟩, ["README.md"]) =
      (["docs"], []) := by
  have h := (C2_dispatch (fun p c => p == c) ⟨["README.md"], "t", true, "opened"⟩
    ([], []) ⟨"filesChanged", "docs", false, false⟩ ["README.md"]
    (by simp)).1 rfl
  rw [h, if_pos ⟨"README.md", by simp, "README.md", by simp, by simp⟩]
  rfl

/-- C3 counterexample: `instanceof Array` accepts arrays of
non-strings, so the configuration `{bug: {patterns: [1]}}` — whose
patterns field is neither a single string nor a sequence of strings,
under the default `filesChanged` trigger — is accepted with the array
stored as-is, instead of failing the whole parse with a
`ConfigurationError` as the claim requires for every such case. -/
theorem C3_counterexample :
    getLabelGlobMapFromObject
        [("bug", ⟨none, none, none, some (.arr [.num 1])⟩)] =
      .ok [(⟨"filesChanged", "bug", false, false⟩, [.num 1])] ∧
    ∀ msg, getLabelGlobMapFromObject
        [("bug", ⟨none, none, none, some (.arr [.num 1])⟩)] ≠ .error msg :=
  ⟨rfl, fun _ h => Except.noConfusion h⟩

/-- C3 (amended): parsing the patterns field of an entry yields a
singleton for a single string; any array value — whatever its element
types, so in particular a sequence of strings — is taken as-is; an
inert placeholder (whose content the evaluator never consults) is
substituted when the field is absent or a non-array invalid value and
the trigger is `alwaysRemove`/`mergeState`; and in every remaining
case (absent or non-array invalid value under any other trigger) the
whole parse fails with an error naming the offending label, producing
no partial rule set. -/
theorem C3_patterns_parsing (label : String) (e : ConfigEntry) :
    (∀ s, e.patterns = some (.str s) →
      parseEntry label e =
        .ok (⟨entryType e, label, entryRemovable e, entryOpenedOnly e⟩,
          [.str s])) ∧
    (∀ xs, e.patterns = some (.arr xs) →
      parseEntry label e =
        .ok (⟨entryType e, label, entryRemovable e, entryOpenedOnly e⟩, xs)) ∧
    ((∀ s, e.patterns ≠ some (.str s)) → (∀ xs, e.patterns ≠ some (.arr xs)) →
      (entryType e = "alwaysRemove" ∨ entryType e = "mergeState") →
      parseEntry label e =
        .ok (⟨entryType e, label, entryRemovable e, entryOpenedOnly e⟩,
          [.str "not applicable"]) ∧
      ∀ (gmatch : String → String → Bool) (facts : PrFacts)
        (acc : List String × List String) (globs globs' : List String),
        processRule gmatch facts acc
          (⟨entryType e, label, entryRemovable e, entryOpenedOnly e⟩, globs) =
        processRule gmatch facts acc
          (⟨entryType e, label, entryRemovable e, entryOpenedOnly e⟩, globs')) ∧
    ((∀ s, e.patterns ≠ some (.str s)) → (∀ xs, e.patterns ≠ some (.arr xs)) →
      entryType e ≠ "alwaysRemove" → entryType e ≠ "mergeState" →
      parseEntry label e =
        .error ("found unexpected type for label patterns " ++ label ++
          " (should be string or array of globs)")) ∧
    (∀ (pre post : List (String × ConfigEntry)) (msg : String),
      parseEntry label e = .error msg →
      ∃ msg2, getLabelGlobMapFromObject (pre ++ (label, e) :: post) =
        .error msg2) := by
  refine ⟨?_, ?_, ?_, ?_, ?_⟩
  · intro s hs
    simp [parseEntry, hs]
  · intro xs hs
    simp [parseEntry, hs]
  · intro h1 h2 h3
    constructor
    · rcases hp : e.patterns with _ | v
      · rcases h3 with h3 | h3 <;> simp [parseEntry, hp, h3]
      · cases v with
        | str s => exact absurd hp (h1 s)
        | arr xs => exact absurd hp (h2 xs)
        | bool b => rcases h3 with h3 | h3 <;> simp [parseEntry, hp, h3]
        | num n => rcases h3 with h3 | h3 <;> simp [parseEntry, hp, h3]
        | nullV => rcases h3 with h3 | h3 <;> simp [parseEntry, hp, h3]
    · intro gmatch facts acc globs globs'
      rcases h3 with h3 | h3 <;> simp [processRule, h3]
  · intro h1 h2 h3 h4
    rcases hp : e.patterns with _ | v
    · simp [parseEntry, hp, h3, h4]
    · cases v with
      | str s => exact absurd hp (h1 s)
      | arr xs => exact absurd hp (h2 xs)
      | bool b => simp [parseEntry, hp, h3, h4]
      | num n => simp [parseEntry, hp, h3, h4]
      | nullV => simp [parseEntry, hp, h3, h4]
  · intro pre post msg hmsg
    induction pre with
    | nil =>
        refine ⟨msg, ?_⟩
        simp only [List.nil_append, getLabelGlobMapFromObject, hmsg]
        rfl
    | cons hd tl ih =>
        rcases ih with ⟨m2, hm2⟩
        rcases hd with ⟨l2, e2⟩
        cases hpe : parseEntry l2 e2 with
        | error m3 =>
            refine ⟨m3, ?_⟩
            simp only [List.cons_append, getLabelGlobMapFromObject, hpe]
            rfl
        | ok v =>
            refine ⟨m2, ?_⟩
            simp only [List.cons_append, getLabelGlobMapFromObject, hpe,
              List.append_eq, hm2]
            rfl

/-- C3 witness: a single-string patterns field parses to a singleton. -/
theorem C3_patterns_parsing_witness :
    parseEntry "docs" ⟨none, none, none, some (.str "*.md")⟩ =
      .ok (⟨"filesChanged", "docs", false, false⟩, [.str "*.md"]) :=
  (C3_patterns_parsing "docs" ⟨none, none, none, some (.str "*.md")⟩).1 "*.md" rfl

/-- Any successful parse stores `entryType e` as the rule's trigger
kind: the source assigns the raw `type` string without validating it
against the recognized trigger names. -/
theorem parseEntry_ok_type (label : String) (e : ConfigEntry)
    (key : LabelerKey) (globs : List ConfigValue)
    (h : parseEntry label e = .ok (key, globs)) :
    key.type = entryType e := by
  rcases hp : e.patterns with _ | v
  · simp only [parseEntry, hp] at h
    split at h
    · obtain ⟨rfl, rfl⟩ := Prod.mk.inj (Except.ok.inj h)
      rfl
    · exact absurd h (by simp)
  · cases v with
    | str s =>
        simp only [parseEntry, hp] at h
        obtain ⟨rfl, rfl⟩ := Prod.mk.inj (Except.ok.inj h)
        rfl
    | arr xs =>
        simp only [parseEntry, hp] at h
        obtain ⟨rfl, rfl⟩ := Prod.mk.inj (Except.ok.inj h)
        rfl
    | bool b =>
        simp only [parseEntry, hp] at h
        split at h
        · obtain ⟨rfl, rfl⟩ := Prod.mk.inj (Except.ok.inj h)
          rfl
        · exact absurd h (by simp)
    | num n =>
        simp only [parseEntry, hp] at h
        split at h
        · obtain ⟨rfl, rfl⟩ := Prod.mk.inj (Except.ok.inj h)
          rfl
        · exact absurd h (by simp)
    | nullV =>
        simp only [parseEntry, hp] at h
        split at h
        · obtain ⟨rfl, rfl⟩ := Prod.mk.inj (Except.ok.inj h)
          rfl
        · exact absurd h (by simp)

/-- C4 counterexample: an entry whose `type` field is the unrecognized
string `"bogus"` parses to a rule whose trigger kind is `"bogus"`, not
`filesChanged` as the claim states. -/
theorem C4_counterexample :
    parseEntry "docs" ⟨some (.str "bogus"), none, none, some (.str "*.md")⟩ =
      .ok (⟨"bogus", "docs", false, false⟩, [.str "*.md"]) ∧
    ("bogus" : String) ≠ "filesChanged" := by
  exact ⟨rfl, by decide⟩

/-- C4 (amended): the parsed rule's trigger kind equals the entry's
`type` field whenever that field is present and is a string — whether
or not it is one of the recognized trigger names — and equals
`filesChanged` exactly when the field is absent or not a string. -/
theorem C4_trigger_assignment (label : String) (e : ConfigEntry)
    (key : LabelerKey) (globs : List ConfigValue)
    (h : parseEntry label e = .ok (key, globs)) :
    (∀ s, e.type = some (.str s) → key.type = s) ∧
    ((∀ s, e.type ≠ some (.str s)) → key.type = "filesChanged") := by
  have hk : key.type = entryType e := parseEntry_ok_type label e key globs h
  constructor
  · intro s hs
    rw [hk]
    simp [entryType, hs]
  · intro hne
    rw [hk]
    rcases ht : e.type with _ | v
    · simp [entryType, ht]
    · cases v with
      | str s => exact absurd ht (hne s)
      | arr xs => simp [entryType, ht]
      | bool b => simp [entryType, ht]
      | num n => simp [entryType, ht]
      | nullV => simp [entryType, ht]

/-- C4 witness: with the `type` field absent, the parsed trigger kind
is `filesChanged`. -/
theorem C4_trigger_assignment_witness :
    (⟨"filesChanged", "docs", false, false⟩ : LabelerKey).type = "filesChanged" :=
  (C4_trigger_assignment "docs" ⟨none, none, none, some (.str "*.md")⟩
    ⟨"filesChanged", "docs", false, false⟩ [.str "*.md"] rfl).2 (fun s => by simp)

/-- C5 counterexample: an empty patterns array is an `Array` at
runtime, so the parse accepts it as-is: the configuration
`{bug: {patterns: []}}` successfully produces a `filesChanged` rule
with an empty pattern sequence, contradicting the claimed non-emptiness
invariant. -/
theorem C5_counterexample :
    getLabelGlobMapFromObject [("bug", ⟨none, none, none, some (.arr [])⟩)] =
      .ok [(⟨"filesChanged", "bug", false, false⟩, [])] := rfl

/-- C5 (amended): a patterns field holding an empty sequence is
accepted as-is by the parse, producing a rule with an empty pattern
sequence even for `filesChanged`/`title` triggers; such a rule's match
condition is always false, since `checkGlobs` on an empty glob list
returns false. -/
theorem C5_empty_patterns_accepted (label : String) (e : ConfigEntry)
    (h : e.patterns = some (.arr [])) :
    parseEntry label e =
      .ok (⟨entryType e, label, entryRemovable e, entryOpenedOnly e⟩, []) ∧
    (∀ (gmatch : String → String → Bool) (files : List String),
      checkGlobs gmatch files [] = false) := by
  refine ⟨by simp [parseEntry, h], ?_⟩
  intro gmatch files
  simp [checkGlobs]

/-- C5 witness: the concrete empty-array entry from the counterexample,
via the amended theorem. -/
theorem C5_empty_patterns_accepted_witness :
    parseEntry "bug" ⟨none, none, none, some (.arr [])⟩ =
      .ok (⟨"filesChanged", "bug", false, false⟩, []) :=
  (C5_empty_patterns_accepted "bug" ⟨none, none, none, some (.arr [])⟩ rfl).1

/-- C10: an entry whose `type` field is a string that is none of the
four recognized trigger kinds, with a valid patterns field (a single
string or a sequence of strings), parses successfully, and the
resulting rule falls through the evaluator's `switch` (which has no
default case) without ever consulting its patterns: it contributes
nothing to either output list, for all PR facts and every glob list. -/
theorem C10_unrecognized_type_inert (s label : String) (e : ConfigEntry)
    (hs1 : s ≠ "filesChanged") (hs2 : s ≠ "title")
    (hs3 : s ≠ "mergeState") (hs4 : s ≠ "alwaysRemove")
    (ht : e.type = some (.str s))
    (hp : (∃ p, e.patterns = some (.str p)) ∨
      ∃ xs : List String, e.patterns = some (.arr (xs.map .str))) :
    ∃ key globs, parseEntry label e = .ok (key, globs) ∧ key.type = s ∧
      ∀ (gmatch : String → String → Bool) (facts : PrFacts)
        (acc : List String × List String) (sglobs : List String),
        processRule gmatch facts acc (key, sglobs) = acc := by
  have hety : entryType e = s := by simp [entryType, ht]
  have hinert : ∀ (sglobs : List String) (gmatch : String → String → Bool)
      (facts : PrFacts) (acc : List String × List String),
      processRule gmatch facts acc
        (⟨s, label, entryRemovable e, entryOpenedOnly e⟩, sglobs) = acc := by
    intro sglobs gmatch facts acc
    simp [processRule, hs1, hs2, hs3, hs4]
  rcases hp with ⟨p, hpe⟩ | ⟨xs, hpe⟩
  · refine ⟨⟨s, label, entryRemovable e, entryOpenedOnly e⟩, [.str p], ?_, rfl, ?_⟩
    · simp [parseEntry, hpe, hety]
    · exact fun gmatch facts acc sglobs => hinert sglobs gmatch facts acc
  · refine ⟨⟨s, label, entryRemovable e, entryOpenedOnly e⟩, xs.map .str, ?_,
      rfl, ?_⟩
    · simp [parseEntry, hpe, hety]
    · exact fun gmatch facts acc sglobs => hinert sglobs gmatch facts acc

/-- C10 witness: the `"bogus"` rule parses and leaves any accumulator
unchanged. -/
theorem C10_unrecognized_type_inert_witness :
    ∃ key globs,
      parseEntry "docs" ⟨some (.str "bogus"), none, none, some (.str "*.md")⟩ =
        .ok (key, globs) ∧ key.type = "bogus" ∧
      ∀ (gmatch : String → String → Bool) (facts : PrFacts)
        (acc : List String × List String) (sglobs : List String),
        processRule gmatch facts acc (key, sglobs) = acc :=
  C10_unrecognized_type_inert "bogus" "docs"
    ⟨some (.str "bogus"), none, none, some (.str "*.md")⟩
    (by decide) (by decide) (by decide) (by decide) rfl (Or.inl ⟨"*.md", rfl⟩)

end Labeler
